import Mathlib

/-!
Verification development for the mission-control dispatch-and-completion
orchestration core.  The definitions below are a shallow embedding of the
TypeScript route handlers:

* the JSON value model and a model of the JavaScript JSON.parse builtin
  (used by the webhook body parse and by extractJSON),
* extractJSON (POST/GET planning helper),
* the relational store (tasks, agents, openclaw_sessions, events,
  task_activities, task_deliverables) and the four write paths:
  task dispatch, agent-completion webhook, agent link/unlink, planning start.

Text is modelled as List Char (JavaScript strings over the ASCII range);
timestamps as Nat; the database as in-memory lists written through the same
statements the source issues.  External collaborators (the gateway client,
HMAC, uuid generation, Date.now) are passed in as explicit parameters.
-/

namespace MissionControl

/-- Characters of a string literal; used to write concrete inputs. -/
def chars (s : String) : List Char := s.data

/-- The double-quote character. -/
def quoteChar : Char := Char.ofNat 34

/-- The backslash character. -/
def backslashChar : Char := Char.ofNat 92

/-- The backquote character (code 96), used by the fenced-code-block regex. -/
def fenceChar : Char := Char.ofNat 96

/-- JSON whitespace accepted by JSON.parse: space, tab, LF, CR. -/
def jsonWs (c : Char) : Bool :=
  c == ' ' || c == '\t' || c == '\n' || c == '\r'

def skipWs (cs : List Char) : List Char := cs.dropWhile jsonWs

/-- JavaScript whitespace (ASCII part) as matched by String.trim and
the regex class backslash-s: space, tab, LF, CR, VT, FF. -/
def jsWs (c : Char) : Bool :=
  c == ' ' || c == '\t' || c == '\n' || c == '\r' ||
  c == Char.ofNat 11 || c == Char.ofNat 12

/-- JavaScript String.trim on both ends. -/
def jsTrim (cs : List Char) : List Char :=
  ((cs.dropWhile jsWs).reverse.dropWhile jsWs).reverse

/-- JSON values as produced by JSON.parse.  A number literal is kept exactly
as a normalized mantissa-and-decimal-exponent pair `mant * 10 ^ exp10`
(mantissa not divisible by 10 unless zero), which identifies the different
spellings of the decimal values exercised here without floating point. -/
inductive Json where
  | null : Json
  | bool (b : Bool) : Json
  | num (mant : Int) (exp10 : Int) : Json
  | str (s : String) : Json
  | arr (elems : List Json) : Json
  | obj (fields : List (String × Json)) : Json

/-- JavaScript truthiness of a parsed JSON value. -/
def truthy : Json → Bool
  | .null => false
  | .bool b => b
  | .num mant _ => mant != 0
  | .str s => s ≠ ""
  | .arr _ => true
  | .obj _ => true

/-- Property access `v.key` on a parsed JSON value: defined (some) only for
object fields; access on arrays/strings/numbers/booleans yields undefined
(none).  Access on null throws in JavaScript; callers model that case
separately. -/
def getField : Json → String → Option Json
  | .obj fields, k => (fields.find? (fun kv => kv.1 = k)).map (·.2)
  | _, _ => none

/-- Key membership test, JavaScript `k in v` on a parsed object. -/
def hasKey (fields : List (String × Json)) (k : String) : Bool :=
  fields.any (fun kv => kv.1 == k)

def hexVal (c : Char) : Option Nat :=
  if '0' ≤ c ∧ c ≤ '9' then some (c.toNat - 48)
  else if 'a' ≤ c ∧ c ≤ 'f' then some (c.toNat - 87)
  else if 'A' ≤ c ∧ c ≤ 'F' then some (c.toNat - 55)
  else none

/-- Single-character JSON string escapes. -/
def escChar (c : Char) : Option Char :=
  if c = quoteChar then some quoteChar
  else if c = backslashChar then some backslashChar
  else if c = '/' then some '/'
  else if c = 'b' then some (Char.ofNat 8)
  else if c = 'f' then some (Char.ofNat 12)
  else if c = 'n' then some '\n'
  else if c = 'r' then some '\r'
  else if c = 't' then some '\t'
  else none

/-- Body of a JSON string after the opening quote: returns the decoded
characters and the remainder after the closing quote. -/
def parseStringBody : Nat → List Char → Option (List Char × List Char)
  | 0, _ => none
  | _ + 1, [] => none
  | fuel + 1, c :: rest =>
    if c = quoteChar then some ([], rest)
    else if c.toNat < 32 then none
    else if c = backslashChar then
      match rest with
      | 'u' :: h1 :: h2 :: h3 :: h4 :: rest2 =>
        match hexVal h1, hexVal h2, hexVal h3, hexVal h4 with
        | some a, some b, some d, some e =>
          match parseStringBody fuel rest2 with
          | some (s, r) => some (Char.ofNat (((a * 16 + b) * 16 + d) * 16 + e) :: s, r)
          | none => none
        | _, _, _, _ => none
      | e :: rest2 =>
        match escChar e with
        | some ec =>
          match parseStringBody fuel rest2 with
          | some (s, r) => some (ec :: s, r)
          | none => none
        | none => none
      | [] => none
    else
      match parseStringBody fuel rest with
      | some (s, r) => some (c :: s, r)
      | none => none

def digitsToNat (ds : List Char) : Nat :=
  ds.foldl (fun acc c => acc * 10 + (c.toNat - 48)) 0

/-- Optional fraction part of a JSON number. -/
def parseFrac : List Char → Option (List Char × List Char)
  | '.' :: r =>
    let fd := r.takeWhile Char.isDigit
    if fd.isEmpty then none else some (fd, r.dropWhile Char.isDigit)
  | cs => some (([] : List Char), cs)

/-- Optional exponent part of a JSON number. -/
def parseExp : List Char → Option (Int × List Char)
  | [] => some (0, [])
  | c :: r =>
    if c == 'e' || c == 'E' then
      let (esign, r2) :=
        match r with
        | '+' :: r3 => ((1 : Int), r3)
        | '-' :: r3 => ((-1 : Int), r3)
        | _ => ((1 : Int), r)
      let ed := r2.takeWhile Char.isDigit
      if ed.isEmpty then none
      else some (esign * (digitsToNat ed : Int), r2.dropWhile Char.isDigit)
    else some (0, c :: r)

/-- Normalize a decimal mantissa/exponent pair by moving factors of 10 from
the mantissa into the exponent (fuel bounds the number of strips). -/
def stripTens : Nat → Int → Int → Int × Int
  | 0, m, e => (m, e)
  | fuel + 1, m, e =>
    if m ≠ 0 ∧ m % 10 = 0 then stripTens fuel (m / 10) (e + 1) else (m, e)

/-- JSON number (strict grammar: no leading zeros, dot and exponent need
digits); value as a normalized mantissa/decimal-exponent pair. -/
def parseNumber (cs : List Char) : Option ((Int × Int) × List Char) :=
  let (neg, cs1) :=
    match cs with
    | '-' :: r => (true, r)
    | _ => (false, cs)
  let intDigits := cs1.takeWhile Char.isDigit
  if intDigits.isEmpty then none
  else if intDigits.length > 1 && intDigits.head? == some '0' then none
  else
    match parseFrac (cs1.dropWhile Char.isDigit) with
    | none => none
    | some (fracDigits, rest2) =>
      match parseExp rest2 with
      | none => none
      | some (e, rest3) =>
        let mantAbs : Int := (digitsToNat (intDigits ++ fracDigits) : Int)
        let mant := if neg then -mantAbs else mantAbs
        some (stripTens (intDigits.length + fracDigits.length)
          mant (e - fracDigits.length), rest3)

mutual

/-- Recursive-descent JSON value parser (model of JSON.parse), fuel-bounded. -/
def parseValue : Nat → List Char → Option (Json × List Char)
  | 0, _ => none
  | fuel + 1, cs =>
    match skipWs cs with
    | [] => none
    | c :: rest =>
      if c = quoteChar then
        match parseStringBody (rest.length + 1) rest with
        | some (s, r) => some (.str (String.mk s), r)
        | none => none
      else if c = '[' then
        match skipWs rest with
        | ']' :: r2 => some (.arr [], r2)
        | _ =>
          match parseElements fuel rest with
          | some (vs, r) => some (.arr vs, r)
          | none => none
      else if c = '{' then
        match skipWs rest with
        | '}' :: r2 => some (.obj [], r2)
        | _ =>
          match parseMembers fuel rest with
          | some (ms, r) => some (.obj ms, r)
          | none => none
      else if c = 't' then
        match rest with
        | 'r' :: 'u' :: 'e' :: r => some (.bool true, r)
        | _ => none
      else if c = 'f' then
        match rest with
        | 'a' :: 'l' :: 's' :: 'e' :: r => some (.bool false, r)
        | _ => none
      else if c = 'n' then
        match rest with
        | 'u' :: 'l' :: 'l' :: r => some (.null, r)
        | _ => none
      else
        match parseNumber (c :: rest) with
        | some ((m, e), r) => some (.num m e, r)
        | none => none

/-- Comma-separated array elements up to the closing bracket. -/
def parseElements : Nat → List Char → Option (List Json × List Char)
  | 0, _ => none
  | fuel + 1, cs =>
    match parseValue fuel cs with
    | none => none
    | some (v, r) =>
      match skipWs r with
      | ',' :: r2 =>
        match parseElements fuel r2 with
        | some (vs, r3) => some (v :: vs, r3)
        | none => none
      | ']' :: r2 => some ([v], r2)
      | _ => none

/-- Comma-separated object members up to the closing brace. -/
def parseMembers : Nat → List Char → Option (List (String × Json) × List Char)
  | 0, _ => none
  | fuel + 1, cs =>
    match skipWs cs with
    | [] => none
    | c :: rest =>
      if c = quoteChar then
        match parseStringBody (rest.length + 1) rest with
        | none => none
        | some (k, r) =>
          match skipWs r with
          | ':' :: r2 =>
            match parseValue fuel r2 with
            | none => none
            | some (v, r3) =>
              match skipWs r3 with
              | ',' :: r4 =>
                match parseMembers fuel r4 with
                | some (ms, r5) => some ((String.mk k, v) :: ms, r5)
                | none => none
              | '}' :: r4 => some ([(String.mk k, v)], r4)
              | _ => none
          | _ => none
      else none

end

/-- Model of JavaScript JSON.parse: parse one value, require only
whitespace after it; exceptions are modelled as none. -/
def jsonParse (cs : List Char) : Option Json :=
  match parseValue (cs.length * 4 + 16) cs with
  | some (v, rest) => if (skipWs rest).isEmpty then some v else none
  | none => none

/-! ### extractJSON (planning route helper) -/

/-- Does the text start with a triple-backquote fence? -/
def isFenceAt (cs : List Char) : Bool :=
  match cs with
  | a :: b :: c :: _ => a == fenceChar && b == fenceChar && c == fenceChar
  | _ => false

/-- Index of the first triple-backquote fence, if any. -/
def findFence : List Char → Option Nat
  | [] => none
  | c :: rest =>
    if isFenceAt (c :: rest) then some 0
    else
      match findFence rest with
      | some n => some (n + 1)
      | none => none

def startsWithList : List Char → List Char → Bool
  | [], _ => true
  | _ :: _, [] => false
  | p :: ps, c :: cs => p == c && startsWithList ps cs

/-- Capture group of the fenced-code-block regex (triple backquote, optional
"json" tag, greedy whitespace, lazy capture up to the next triple
backquote).  The regex is deterministic here because neither the tag nor
whitespace can contain a backquote, so backtracking never changes the
outcome: the match is the first fence, and the capture runs to the first
fence after the optional tag and whitespace. -/
def codeBlockCapture (text : List Char) : Option (List Char) :=
  match findFence text with
  | none => none
  | some i =>
    let afterOpen := text.drop (i + 3)
    let afterTag :=
      if startsWithList (chars "json") afterOpen then afterOpen.drop 4 else afterOpen
    let inner := afterTag.dropWhile jsWs
    match findFence inner with
    | none => none
    | some m => some (inner.take m)

def firstIndexOfChar : List Char → Char → Option Nat
  | [], _ => none
  | c :: rest, t =>
    if c == t then some 0 else (firstIndexOfChar rest t).map (· + 1)

def lastIndexOfChar (cs : List Char) (t : Char) : Option Nat :=
  match firstIndexOfChar cs.reverse t with
  | some n => some (cs.length - 1 - n)
  | none => none

/-- Third extraction strategy: substring from the first opening brace to the
last closing brace, inclusive, when the latter is strictly after the
former. -/
def braceSlice (text : List Char) : Option Json :=
  match firstIndexOfChar text '{', lastIndexOfChar text '}' with
  | some fb, some lb =>
    if lb > fb then jsonParse ((text.drop fb).take (lb + 1 - fb))
    else none
  | _, _ => none

/-- extractJSON: direct parse of the trimmed text, then the fenced code
block's interior, then the first-brace-to-last-brace slice; null on total
failure. -/
def extractJSON (text : List Char) : Option Json :=
  match jsonParse (jsTrim text) with
  | some v => some v
  | none =>
    match codeBlockCapture text with
    | some captured =>
      match jsonParse (jsTrim captured) with
      | some v => some v
      | none => braceSlice text
    | none => braceSlice text

/-- First strategy of extractJSON, named for the refinement theorem. -/
def strategyDirect (text : List Char) : Option Json := jsonParse (jsTrim text)

/-- Second strategy of extractJSON, named for the refinement theorem. -/
def strategyCodeBlock (text : List Char) : Option Json :=
  match codeBlockCapture text with
  | some captured => jsonParse (jsTrim captured)
  | none => none

/-- Third strategy of extractJSON, named for the refinement theorem. -/
def strategyBraces (text : List Char) : Option Json := braceSlice text

/-- First-success choice over the three strategies. -/
def firstSome (a b c : Option Json) : Option Json :=
  match a with
  | some v => some v
  | none =>
    match b with
    | some v => some v
    | none => c

/-- Whether a JSON value is an object. -/
def Json.isObj : Json → Bool
  | .obj _ => true
  | _ => false

/-! ### Relational store -/

/-- One entry of a task's planning_messages JSON column. -/
structure ChatMsg where
  role : String
  content : String
  timestamp : Nat
deriving DecidableEq

structure Task where
  id : String
  title : String
  description : Option String
  status : String
  priority : String
  assigned_agent_id : Option String
  due_date : Option String
  workspace_id : String
  planning_session_key : Option String
  planning_messages : List ChatMsg
  updated_at : Nat
deriving DecidableEq

structure Agent where
  id : String
  name : String
  role : String
  is_master : Bool
  status : String
  workspace_id : String
  updated_at : Nat
deriving DecidableEq

/-- Row of the openclaw_sessions table. -/
structure SessionRow where
  id : String
  agent_id : String
  openclaw_session_id : String
  channel : String
  status : String
  created_at : Nat
  updated_at : Nat
deriving DecidableEq

structure Event where
  id : String
  type : String
  agent_id : Option String
  task_id : Option String
  message : String
  created_at : Nat
deriving DecidableEq

/-- Row of task_activities.  The message column receives the payload value
bound by the insert statement, so it is kept as a JSON value. -/
structure Activity where
  id : String
  task_id : String
  agent_id : Option String
  activity_type : String
  message : Json
  created_at : Nat

/-- Row of task_deliverables; payload-supplied columns keep the bound JSON
value. -/
structure DeliverableRow where
  id : String
  task_id : String
  deliverable_type : Json
  title : Json
  path : Json
  description : Json
  created_at : Nat

structure Store where
  tasks : List Task
  agents : List Agent
  sessions : List SessionRow
  events : List Event
  activities : List Activity
  deliverables : List DeliverableRow

/-! ### JavaScript string coercion (template literals) -/

def natChars : Nat → Nat → List Char
  | 0, _ => []
  | fuel + 1, n =>
    if n < 10 then [Char.ofNat (48 + n)]
    else natChars fuel (n / 10) ++ [Char.ofNat (48 + n % 10)]

def natDisplay (n : Nat) : String := String.mk (natChars (n + 1) n)

def intDisplay (i : Int) : String :=
  if i < 0 then "-" ++ natDisplay i.natAbs else natDisplay i.natAbs

/-- Exact decimal rendering of `m / 10 ^ k` for `k > 0`. -/
def decimalDisplay (m : Int) (k : Nat) : String :=
  let sign := if m < 0 then "-" else ""
  let ds := natChars (m.natAbs + 1) m.natAbs
  let ds := if ds.length ≤ k then List.replicate (k + 1 - ds.length) '0' ++ ds else ds
  sign ++ String.mk (ds.take (ds.length - k)) ++ "." ++ String.mk (ds.drop (ds.length - k))

/-- JavaScript template-literal coercion of a parsed JSON value.  Strings,
null, booleans and (small) exact decimal numbers are rendered as JavaScript
renders them; the array case (never exercised by a claim) is abbreviated. -/
def jsDisplay : Json → String
  | .str s => s
  | .null => "null"
  | .bool true => "true"
  | .bool false => "false"
  | .num m e =>
    if 0 ≤ e then intDisplay (m * (10 : Int) ^ e.toNat) else decimalDisplay m (-e).toNat
  | .arr [] => ""
  | .arr _ => "<array>"
  | .obj _ => "[object Object]"

/-- Template interpolation of a possibly-undefined string (a missing LEFT
JOIN column renders as "undefined"). -/
def jsDisplayOptStr : Option String → String
  | some s => s
  | none => "undefined"

/-- Truthiness of a possibly-undefined property. -/
def truthyOpt : Option Json → Bool
  | some j => truthy j
  | none => false

/-- JavaScript `x || dflt` over a possibly-undefined property. -/
def jsOrDefault (v : Option Json) (dflt : Json) : Json :=
  match v with
  | some j => if truthy j then j else dflt
  | none => dflt

/-! ### TASK_COMPLETE message pattern

Model of the case-insensitive regex search for the marker literal followed
by optional whitespace and a non-empty single-line capture. -/

/-- Is the regex-dot-matchable class (anything but a line terminator)? -/
def dotChar (c : Char) : Bool := !(c == '\n' || c == '\r')

/-- Case-insensitive literal prefix test (pattern given in lowercase). -/
def startsWithLower : List Char → List Char → Bool
  | [], _ => true
  | _ :: _, [] => false
  | p :: ps, c :: cs => (c.toLower == p) && startsWithLower ps cs

/-- After the marker: greedy whitespace run, then backtrack until the next
character is dot-matchable; capture greedily to the end of that line.
`k` is the current number of whitespace characters consumed. -/
def captureAfterWs : Nat → List Char → Option (List Char)
  | k, rest =>
    match (rest.drop k).head? with
    | some c =>
      if dotChar c then some ((rest.drop k).takeWhile dotChar)
      else
        match k with
        | 0 => none
        | k' + 1 => captureAfterWs k' rest
    | none =>
      match k with
      | 0 => none
      | k' + 1 => captureAfterWs k' rest

/-- Search the message left to right for a marker occurrence whose suffix
admits a capture. -/
def taskCompleteSearch : Nat → List Char → Option (List Char)
  | 0, _ => none
  | fuel + 1, cs =>
    match cs with
    | [] => none
    | c :: rest =>
      if startsWithLower (chars "task_complete:") (c :: rest) then
        let afterMarker := (c :: rest).drop 14
        match captureAfterWs (afterMarker.takeWhile jsWs).length afterMarker with
        | some cap => some cap
        | none => taskCompleteSearch fuel rest
      else taskCompleteSearch fuel rest

/-- Capture group of `message.match` against the TASK_COMPLETE pattern. -/
def taskCompleteMatch (msg : List Char) : Option (List Char) :=
  taskCompleteSearch (msg.length + 1) msg

/-! ### Completion webhook handler -/

inductive WebhookResult where
  | unauthorized
  | internalError
  | taskNotFound
  | okDirect (task_id new_status : String) (deliverables_registered : Nat)
  | invalidFormat
  | sessionNotFound
  | noActiveTask
  | okLegacy (task_id agent_id summary : String)
  | invalidPayload
deriving DecidableEq

/-- HTTP status of each webhook outcome, as returned by the route. -/
def WebhookResult.statusCode : WebhookResult → Nat
  | .unauthorized => 401
  | .internalError => 500
  | .taskNotFound => 404
  | .okDirect _ _ _ => 200
  | .invalidFormat => 400
  | .sessionNotFound => 404
  | .noActiveTask => 404
  | .okLegacy _ _ _ => 200
  | .invalidPayload => 400

/-- Fresh identifiers consumed by the webhook's inserts. -/
structure WebhookIds where
  deliverableId : Nat → String
  activityId : String
  eventId : String

def statusOrder : List String :=
  ["planning", "inbox", "assigned", "in_progress", "testing", "review", "done"]

/-- JavaScript Array.prototype.indexOf: position or -1. -/
def jsIndexOf : List String → String → Int
  | [], _ => -1
  | x :: xs, y =>
    if x = y then 0
    else
      let r := jsIndexOf xs y
      if r = -1 then -1 else r + 1

def allowedStatuses : List String := ["testing", "review", "done"]

/-- `allowedStatuses.includes(body.status) ? body.status : 'testing'`
(strict equality: only a string can be included). -/
def targetStatusOf (bodyStatus : Option Json) : String :=
  match bodyStatus with
  | some (.str s) => if s ∈ allowedStatuses then s else "testing"
  | _ => "testing"

/-- `SELECT ... FROM tasks WHERE t.id = ?` with the payload value bound:
only a string value can equal a TEXT id. -/
def taskLookup (tasks : List Task) (tid : Json) : Option Task :=
  match tid with
  | .str s => tasks.find? (fun t => t.id = s)
  | _ => none

/-- `WHERE openclaw_session_id = ? AND status = 'active'`. -/
def sessionLookup (sessions : List SessionRow) (sid : Json) : Option SessionRow :=
  match sid with
  | .str s => sessions.find? (fun x => x.openclaw_session_id = s ∧ x.status = "active")
  | _ => none

/-- `WHERE assigned_agent_id = ? AND status IN ('assigned','in_progress')
ORDER BY updated_at DESC LIMIT 1` (earliest row wins a timestamp tie). -/
def pickActiveTask (tasks : List Task) (agentId : String) : Option Task :=
  tasks.foldl
    (fun acc t =>
      if t.assigned_agent_id = some agentId ∧
          (t.status = "assigned" ∨ t.status = "in_progress") then
        match acc with
        | none => some t
        | some b => if t.updated_at > b.updated_at then some t else acc
      else acc)
    none

/-- `a.name as assigned_agent_name` of the LEFT JOIN on the task's agent. -/
def assignedAgentName (agents : List Agent) (t : Task) : Option String :=
  match t.assigned_agent_id with
  | some aid => (agents.find? (fun a => a.id = aid)).map (fun a => a.name)
  | none => none

/-- One INSERT INTO task_deliverables; none when binding `d.title` throws
because the property is undefined (also when `d` itself is not an object). -/
def mkDeliverableRow (taskId : String) (now : Nat) (did : String) (d : Json) :
    Option DeliverableRow :=
  match d with
  | .null => none
  | _ =>
    match getField d "title" with
    | none => none
    | some title =>
      some { id := did, task_id := taskId,
             deliverable_type := jsOrDefault (getField d "type") (Json.str "file"),
             title := title,
             path := jsOrDefault (getField d "path") Json.null,
             description := jsOrDefault (getField d "description") Json.null,
             created_at := now }

/-- The deliverable insert loop; second component false when an insert threw
(rows before it stay committed: no transaction spans the loop). -/
def insertDeliverableRows (taskId : String) (now : Nat) (dids : Nat → String) :
    Nat → List Json → List DeliverableRow × Bool
  | _, [] => ([], true)
  | i, d :: ds =>
    match mkDeliverableRow taskId now (dids i) d with
    | none => ([], false)
    | some row =>
      let (rest, ok) := insertDeliverableRows taskId now dids (i + 1) ds
      (row :: rest, ok)

/-- Forward-only status computation of the direct path: the requested
target when its index is strictly greater than the current one, else the
unchanged current status. -/
def directNewStatus (body : Json) (task : Task) : String :=
  let targetStatus := targetStatusOf (getField body "status")
  let currentIdx := jsIndexOf statusOrder task.status
  let targetIdx := jsIndexOf statusOrder targetStatus
  if targetIdx > currentIdx then targetStatus else task.status

/-- The conditional status UPDATE of the direct path (issued only when the
computed status differs). -/
def directTasks (store : Store) (body : Json) (task : Task) (now : Nat) : List Task :=
  let newStatus := directNewStatus body task
  if newStatus ≠ task.status then
    store.tasks.map (fun u =>
      if u.id = task.id then { u with status := newStatus, updated_at := now } else u)
  else store.tasks

/-- Direct (task_id) completion path of the webhook. -/
def handleDirect (store : Store) (body : Json) (tidJson : Json) (now : Nat)
    (ids : WebhookIds) : WebhookResult × Store :=
  match taskLookup store.tasks tidJson with
  | none => (.taskNotFound, store)
  | some task =>
    let newStatus := directNewStatus body task
    let tasks' := directTasks store body task now
    let summaryVal := jsOrDefault (getField body "summary") (Json.str "Task finished")
    let finishRows := fun (rows : List DeliverableRow) (count : Nat) =>
      let agents' :=
        match task.assigned_agent_id with
        | some aid =>
          if aid ≠ "" then
            store.agents.map (fun a =>
              if a.id = aid then { a with status := "standby", updated_at := now } else a)
          else store.agents
        | none => store.agents
      (WebhookResult.okDirect task.id newStatus count,
       { store with
         tasks := tasks',
         deliverables := store.deliverables ++ rows,
         activities := store.activities ++
           [{ id := ids.activityId, task_id := task.id,
              agent_id := task.assigned_agent_id, activity_type := "completed",
              message := summaryVal, created_at := now }],
         events := store.events ++
           [{ id := ids.eventId, type := "task_completed",
              agent_id := task.assigned_agent_id, task_id := some task.id,
              message := jsDisplayOptStr (assignedAgentName store.agents task) ++
                " completed: " ++ jsDisplay summaryVal,
              created_at := now }],
         agents := agents' })
    match getField body "deliverables" with
    | some (.arr ds) =>
      let (rows, ok) := insertDeliverableRows task.id now ids.deliverableId 0 ds
      if ok then finishRows rows ds.length
      else (.internalError,
        { store with tasks := tasks',
                     deliverables := store.deliverables ++ rows })
    | some v =>
      if truthy v then
        -- for-of over a non-array truthy value throws before any insert lands
        (.internalError, { store with tasks := tasks' })
      else finishRows [] 0
    | none => finishRows [] 0

/-- Legacy (session_id + message) completion path of the webhook. -/
def handleLegacy (store : Store) (sidJson msgJson : Json) (now : Nat)
    (ids : WebhookIds) : WebhookResult × Store :=
  match msgJson with
  | .str m =>
    match taskCompleteMatch m.data with
    | none => (.invalidFormat, store)
    | some cap =>
      let summary := String.mk (jsTrim cap)
      match sessionLookup store.sessions sidJson with
      | none => (.sessionNotFound, store)
      | some session =>
        match pickActiveTask store.tasks session.agent_id with
        | none => (.noActiveTask, store)
        | some task =>
          let tasks' :=
            if task.status ≠ "testing" ∧ task.status ≠ "review" ∧ task.status ≠ "done" then
              store.tasks.map (fun u =>
                if u.id = task.id then { u with status := "testing", updated_at := now } else u)
            else store.tasks
          (.okLegacy task.id session.agent_id summary,
           { store with
             tasks := tasks',
             events := store.events ++
               [{ id := ids.eventId, type := "task_completed",
                  agent_id := some session.agent_id, task_id := some task.id,
                  message := jsDisplayOptStr (assignedAgentName store.agents task) ++
                    " completed: " ++ summary,
                  created_at := now }],
             agents := store.agents.map (fun a =>
               if a.id = session.agent_id then
                 { a with status := "standby", updated_at := now }
               else a) })
  | _ =>
    -- .match on a non-string payload value throws
    (.internalError, store)

/-- Webhook body dispatch after signature verification and JSON.parse. -/
def handleBody (store : Store) (body : Json) (now : Nat) (ids : WebhookIds) :
    WebhookResult × Store :=
  match body with
  | .null => (.internalError, store)  -- property access on null throws
  | _ =>
    if truthyOpt (getField body "task_id") then
      handleDirect store body ((getField body "task_id").getD .null) now ids
    else if truthyOpt (getField body "session_id") ∧ truthyOpt (getField body "message") then
      handleLegacy store ((getField body "session_id").getD .null)
        ((getField body "message").getD .null) now ids
    else (.invalidPayload, store)

/-- verifyWebhookSignature of the webhook route; the HMAC-SHA-256 hex digest
is an injected parameter (external crypto library). -/
def verifyWebhookSignature (hmacHex : String → String → String)
    (webhookSecret : String) (signature : String) (rawBody : String) : Bool :=
  if webhookSecret = "" then true
  else if signature = "" then false
  else signature = hmacHex webhookSecret rawBody

/-- POST /api/webhooks/agent-completion. -/
def agentCompletionPOST (hmacHex : String → String → String) (webhookSecret : String)
    (signatureHeader : Option String) (rawBody : String) (store : Store) (now : Nat)
    (ids : WebhookIds) : WebhookResult × Store :=
  let proceed := fun (_ : Unit) =>
    match jsonParse rawBody.data with
    | none => (WebhookResult.internalError, store)
    | some body => handleBody store body now ids
  if webhookSecret ≠ "" then
    match signatureHeader with
    | none => (.unauthorized, store)
    | some sig =>
      if sig = "" ∨ ¬ verifyWebhookSignature hmacHex webhookSecret sig rawBody then
        (.unauthorized, store)
      else proceed ()
  else proceed ()

/-! ### Task dispatch route -/

/-- One chat.send call handed to the gateway client. -/
structure SentMessage where
  sessionKey : String
  message : String
  idempotencyKey : String
deriving DecidableEq

/-- Projection (id, name, role) of the sibling-orchestrator query. -/
structure OrchRef where
  id : String
  name : String
  role : String
deriving DecidableEq

inductive DispatchResult where
  | taskNotFound
  | noAssignedAgent
  | agentNotFound
  | conflict (otherOrchestrators : List OrchRef)
  | gatewayUnavailable
  | ok (task_id agent_id session_id : String)
  | sendFailed
deriving DecidableEq

/-- HTTP status of each dispatch outcome. -/
def DispatchResult.statusCode : DispatchResult → Nat
  | .taskNotFound => 404
  | .noAssignedAgent => 400
  | .agentNotFound => 404
  | .conflict _ => 409
  | .gatewayUnavailable => 503
  | .ok _ _ _ => 200
  | .sendFailed => 500

structure DispatchIds where
  sessionId : String
  sessionEventId : String
  eventId : String
  activityId : String

structure DispatchConfig where
  projectsPath : String
  missionControlUrl : String
  apiToken : String

/-- Replace every JavaScript-whitespace run by a single dash
(`.replace(/\s+/g, '-')`), fuel-bounded by the input length. -/
def replaceWsRuns : Nat → List Char → List Char
  | 0, _ => []
  | _ + 1, [] => []
  | fuel + 1, c :: rest =>
    if jsWs c then '-' :: replaceWsRuns fuel (rest.dropWhile jsWs)
    else c :: replaceWsRuns fuel rest

/-- Derived external session id: "mission-control-" plus the lowercased,
dash-collapsed agent name. -/
def slugSessionId (name : String) : String :=
  "mission-control-" ++
    String.mk (replaceWsRuns (name.data.length + 1) (name.data.map Char.toLower))

def isSlugChar (c : Char) : Bool :=
  (97 ≤ c.toNat && c.toNat ≤ 122) || (48 ≤ c.toNat && c.toNat ≤ 57)

/-- Replace every run outside [a-z0-9] by a single dash. -/
def replaceNonSlugRuns : Nat → List Char → List Char
  | 0, _ => []
  | _ + 1, [] => []
  | fuel + 1, c :: rest =>
    if isSlugChar c then c :: replaceNonSlugRuns fuel rest
    else '-' :: replaceNonSlugRuns fuel (rest.dropWhile (fun d => !isSlugChar d))

/-- `.replace(/^-|-$/g, '')`: drop one leading and one trailing dash. -/
def stripEdgeDashes (cs : List Char) : List Char :=
  let cs1 := match cs with
    | '-' :: r => r
    | _ => cs
  if cs1.getLast? == some '-' then cs1.dropLast else cs1

/-- Filesystem-safe project directory segment derived from the task title. -/
def projectDirSlug (title : String) : String :=
  String.mk (stripEdgeDashes
    (replaceNonSlugRuns (title.data.length + 1) (title.data.map Char.toLower)))

def priorityEmoji (p : String) : String :=
  if p = "low" then "🔵"
  else if p = "normal" then "⚪"
  else if p = "high" then "🟡"
  else if p = "urgent" then "🔴"
  else "⚪"

def jsToUpper (s : String) : String := String.mk (s.data.map Char.toUpper)

/-- The task message template sent to the agent's session. -/
def dispatchMessage (cfg : DispatchConfig) (task : Task) : String :=
  let taskProjectDir := cfg.projectsPath ++ "/" ++ projectDirSlug task.title
  let authInstruction :=
    if cfg.apiToken ≠ "" then
      "\nInclude header: Authorization: Bearer " ++ cfg.apiToken
    else ""
  priorityEmoji task.priority ++ " **NEW TASK ASSIGNED**\n\n**Title:** " ++
  task.title ++ "\n" ++
  (match task.description with
   | some d => if d ≠ "" then "**Description:** " ++ d ++ "\n" else ""
   | none => "") ++
  "**Priority:** " ++ jsToUpper task.priority ++ "\n" ++
  (match task.due_date with
   | some d => if d ≠ "" then "**Due:** " ++ d ++ "\n" else ""
   | none => "") ++
  "**Task ID:** " ++ task.id ++ "\n\n**OUTPUT DIRECTORY:** " ++ taskProjectDir ++
  "\nCreate this directory and save all deliverables there." ++
  "\n\n**WHEN COMPLETE**, make ONE API call to report results:\nPOST " ++
  cfg.missionControlUrl ++ "/api/webhooks/agent-completion" ++
  "\nContent-Type: application/json" ++ authInstruction ++
  "\n\n\x7b\n  \"task_id\": \"" ++ task.id ++ "\",\n  \"status\": \"review\"," ++
  "\n  \"summary\": \"Brief description of what you did\",\n  \"deliverables\": [" ++
  "\n    \x7b\"type\": \"file\", \"title\": \"filename.ext\", \"path\": \"" ++
  taskProjectDir ++ "/filename.ext\"\x7d\n  ]\n\x7d" ++
  "\n\nIf you need help or clarification, ask the orchestrator."

/-- POST /api/tasks/[id]/dispatch.  Gateway behaviour is injected: whether
the client is already connected, whether a connect attempt succeeds, and
whether the chat.send call succeeds.  The third component lists the
chat.send calls made. -/
def dispatchPOST (store : Store) (id : String) (connected connectOk sendOk : Bool)
    (cfg : DispatchConfig) (now nowMs : Nat) (ids : DispatchIds) :
    DispatchResult × Store × List SentMessage :=
  match store.tasks.find? (fun t => t.id = id) with
  | none => (.taskNotFound, store, [])
  | some task =>
    match task.assigned_agent_id with
    | none => (.noAssignedAgent, store, [])
    | some aid =>
      if aid = "" then (.noAssignedAgent, store, [])
      else
        match store.agents.find? (fun a => a.id = aid) with
        | none => (.agentNotFound, store, [])
        | some agent =>
          let otherOrchestrators :=
            if agent.is_master then
              store.agents.filter (fun a =>
                a.is_master ∧ a.id ≠ agent.id ∧
                a.workspace_id = task.workspace_id ∧ a.status ≠ "offline")
            else []
          if otherOrchestrators.length > 0 then
            (.conflict (otherOrchestrators.map (fun a => ⟨a.id, a.name, a.role⟩)),
             store, [])
          else if ¬connected ∧ ¬connectOk then (.gatewayUnavailable, store, [])
          else
            let existing := store.sessions.find? (fun x =>
              x.agent_id = agent.id ∧ x.status = "active")
            let (session, store1) : SessionRow × Store :=
              match existing with
              | some s => (s, store)
              | none =>
                let s : SessionRow :=
                  { id := ids.sessionId, agent_id := agent.id,
                    openclaw_session_id := slugSessionId agent.name,
                    channel := "mission-control", status := "active",
                    created_at := now, updated_at := now }
                (s, { store with
                      sessions := store.sessions ++ [s],
                      events := store.events ++
                        [{ id := ids.sessionEventId, type := "agent_status_changed",
                           agent_id := some agent.id, task_id := none,
                           message := agent.name ++ " session created",
                           created_at := now }] })
            let sent : List SentMessage :=
              [{ sessionKey := "agent:main:" ++ session.openclaw_session_id,
                 message := dispatchMessage cfg task,
                 idempotencyKey := "dispatch-" ++ task.id ++ "-" ++ natDisplay nowMs }]
            if sendOk then
              (.ok task.id agent.id session.openclaw_session_id,
               { store1 with
                 tasks := store1.tasks.map (fun u =>
                   if u.id = id then { u with status := "in_progress", updated_at := now }
                   else u),
                 agents := store1.agents.map (fun a =>
                   if a.id = agent.id then { a with status := "working", updated_at := now }
                   else a),
                 events := store1.events ++
                   [{ id := ids.eventId, type := "task_dispatched",
                      agent_id := some agent.id, task_id := some task.id,
                      message := "Task \"" ++ task.title ++ "\" dispatched to " ++
                        agent.name,
                      created_at := now }],
                 activities := store1.activities ++
                   [{ id := ids.activityId, task_id := task.id,
                      agent_id := some agent.id, activity_type := "status_changed",
                      message := .str ("Task dispatched to " ++ agent.name ++
                        " - Agent is now working on this task"),
                      created_at := now }] },
               sent)
            else (.sendFailed, store1, sent)

/-! ### Agent link/unlink route -/

inductive LinkResult where
  | agentNotFound
  | alreadyLinked (session : SessionRow)
  | gatewayUnavailable
  | gatewayListFailed
  | linked (session : SessionRow)
deriving DecidableEq

def LinkResult.statusCode : LinkResult → Nat
  | .agentNotFound => 404
  | .alreadyLinked _ => 409
  | .gatewayUnavailable => 503
  | .gatewayListFailed => 503
  | .linked _ => 201

structure LinkIds where
  sessionId : String
  eventId : String

/-- POST /api/agents/[id]/openclaw.  The optional request-body field
openclaw_session_id is passed as a string when present (non-string payloads
are not exercised); a body that fails to parse is the empty object. -/
def openclawPOST (store : Store) (id : String) (connected connectOk listOk : Bool)
    (bodySessionId : Option String) (ids : LinkIds) (now : Nat) :
    LinkResult × Store :=
  match store.agents.find? (fun a => a.id = id) with
  | none => (.agentNotFound, store)
  | some agent =>
    match store.sessions.find? (fun x => x.agent_id = id ∧ x.status = "active") with
    | some existingSession => (.alreadyLinked existingSession, store)
    | none =>
      if ¬connected ∧ ¬connectOk then (.gatewayUnavailable, store)
      else if ¬listOk then (.gatewayListFailed, store)
      else
        let openclawSessionId :=
          match bodySessionId with
          | some s => if s ≠ "" then s else slugSessionId agent.name
          | none => slugSessionId agent.name
        let s : SessionRow :=
          { id := ids.sessionId, agent_id := id,
            openclaw_session_id := openclawSessionId, channel := "mission-control",
            status := "active", created_at := now, updated_at := now }
        (.linked s,
         { store with
           sessions := store.sessions ++ [s],
           events := store.events ++
             [{ id := ids.eventId, type := "agent_status_changed",
                agent_id := some id, task_id := none,
                message := agent.name ++ " connected to OpenClaw Gateway",
                created_at := now }] })

inductive UnlinkResult where
  | agentNotFound
  | notLinked
  | unlinked
deriving DecidableEq

def UnlinkResult.statusCode : UnlinkResult → Nat
  | .agentNotFound => 404
  | .notLinked => 404
  | .unlinked => 200

/-- DELETE /api/agents/[id]/openclaw: marks the active session inactive
(never deletes) and logs a disconnect event. -/
def openclawDELETE (store : Store) (id : String) (eventId : String) (now : Nat) :
    UnlinkResult × Store :=
  match store.agents.find? (fun a => a.id = id) with
  | none => (.agentNotFound, store)
  | some agent =>
    match store.sessions.find? (fun x => x.agent_id = id ∧ x.status = "active") with
    | none => (.notLinked, store)
    | some existingSession =>
      (.unlinked,
       { store with
         sessions := store.sessions.map (fun x =>
           if x.id = existingSession.id then
             { x with status := "inactive", updated_at := now }
           else x),
         events := store.events ++
           [{ id := eventId, type := "agent_status_changed",
              agent_id := some id, task_id := none,
              message := agent.name ++ " disconnected from OpenClaw Gateway",
              created_at := now }] })

/-! ### Planning route (POST: start planning, bounded poll) -/

/-- One content block of a gateway chat.history message. -/
structure OCBlock where
  type : String
  text : Option String
deriving DecidableEq

/-- One gateway chat.history message. -/
structure OCMessage where
  role : String
  content : List OCBlock
deriving DecidableEq

structure GatewayMsg where
  role : String
  content : String
deriving DecidableEq

/-- getMessagesFromOpenClaw: keep assistant messages with a non-empty text
content block (gateway failures surface as an empty transcript). -/
def assistantTexts (msgs : List OCMessage) : List GatewayMsg :=
  msgs.filterMap (fun m =>
    if m.role = "assistant" then
      match m.content.find? (fun c => c.type = "text") with
      | some c =>
        match c.text with
        | some t => if t ≠ "" then some ⟨"assistant", t⟩ else none
        | none => none
      | none => none
    else none)

/-- The polling loop of the planning POST: at most `fuel` polls, starting at
attempt `i`; the transcript visible at the k-th poll is `history k`. -/
def pollForResponse (history : Nat → List OCMessage) : Nat → Nat → Option String
  | _, 0 => none
  | i, fuel + 1 =>
    let transcriptMessages := assistantTexts (history i)
    if transcriptMessages.length > 0 then
      match transcriptMessages.reverse.find? (fun m => m.role = "assistant") with
      | some lastAssistant => some lastAssistant.content
      | none => pollForResponse history (i + 1) fuel
    else pollForResponse history (i + 1) fuel

inductive PlanningResult where
  | taskNotFound
  | alreadyStarted (sessionKey : String)
  | startFailed
  | question (sessionKey : String) (q : Json) (messages : List ChatMsg)
  | raw (sessionKey : String) (rawResponse : String) (messages : List ChatMsg)
  | waiting (sessionKey : String) (messages : List ChatMsg) (note : String)
  | internalError

def PlanningResult.statusCode : PlanningResult → Nat
  | .taskNotFound => 404
  | .alreadyStarted _ => 400
  | .startFailed => 500
  | .question _ _ _ => 200
  | .raw _ _ _ => 200
  | .waiting _ _ _ => 200
  | .internalError => 500

/-- Whether a planning outcome is reported with success: true. -/
def PlanningResult.isSuccess : PlanningResult → Bool
  | .question _ _ _ => true
  | .raw _ _ _ => true
  | .waiting _ _ _ => true
  | _ => false

def stillWaitingNote : String :=
  "Planning started, waiting for response. Poll GET endpoint for updates."

/-- The initial planning prompt template. -/
def planningPrompt (task : Task) : String :=
  "PLANNING REQUEST\n\nTask Title: " ++ task.title ++ "\nTask Description: " ++
  (match task.description with
   | some d => if d ≠ "" then d else "No description provided"
   | none => "No description provided") ++
  "\n\nYou are starting a planning session for this task. " ++
  "Read PLANNING.md for your protocol.\n\n" ++
  "Generate your FIRST question to understand what the user needs. Remember:\n" ++
  "- Questions must be multiple choice\n- Include an \"Other\" option\n" ++
  "- Be specific to THIS task, not generic\n\n" ++
  "Respond with ONLY valid JSON in this format:\n\x7b\n" ++
  "  \"question\": \"Your question here?\",\n  \"options\": [\n" ++
  "    \x7b\"id\": \"A\", \"label\": \"First option\"\x7d,\n" ++
  "    \x7b\"id\": \"B\", \"label\": \"Second option\"\x7d,\n" ++
  "    \x7b\"id\": \"C\", \"label\": \"Third option\"\x7d,\n" ++
  "    \x7b\"id\": \"other\", \"label\": \"Other\"\x7d\n  ]\n\x7d"

/-- POST /api/tasks/[id]/planning: send the planning prompt, persist the
session key and outgoing message with status 'planning', then poll the
gateway transcript up to 30 times for an assistant reply. -/
def planningPOST (store : Store) (taskId : String) (history : Nat → List OCMessage)
    (connected connectOk sendOk : Bool) (nowMs1 nowMs2 : Nat) :
    PlanningResult × Store × List SentMessage :=
  match store.tasks.find? (fun t => t.id = taskId) with
  | none => (.taskNotFound, store, [])
  | some task =>
    match task.planning_session_key with
    | some k => (.alreadyStarted k, store, [])
    | none =>
      let sessionKey := "agent:main:planning:" ++ taskId
      if ¬connected ∧ ¬connectOk then (.startFailed, store, [])
      else
        let prompt := planningPrompt task
        let sent : List SentMessage :=
          [{ sessionKey := sessionKey, message := prompt,
             idempotencyKey := "planning-start-" ++ taskId ++ "-" ++ natDisplay nowMs1 }]
        if ¬sendOk then (.startFailed, store, sent)
        else
          let messages : List ChatMsg :=
            [{ role := "user", content := prompt, timestamp := nowMs1 }]
          let store1 :=
            { store with tasks := store.tasks.map (fun u =>
                if u.id = taskId then
                  { u with planning_session_key := some sessionKey,
                           planning_messages := messages, status := "planning" }
                else u) }
          match pollForResponse history 0 30 with
          | some response =>
            let messages2 := messages ++
              [{ role := "assistant", content := response, timestamp := nowMs2 }]
            let store2 :=
              { store1 with tasks := store1.tasks.map (fun u =>
                  if u.id = taskId then { u with planning_messages := messages2 }
                  else u) }
            (match extractJSON response.data with
             | none => (.raw sessionKey response messages2, store2, sent)
             | some parsed =>
               if ¬ truthy parsed then (.raw sessionKey response messages2, store2, sent)
               else
                 match parsed with
                 | .obj fields =>
                   if hasKey fields "question" then
                     (.question sessionKey parsed messages2, store2, sent)
                   else (.raw sessionKey response messages2, store2, sent)
                 | .arr _ => (.raw sessionKey response messages2, store2, sent)
                 | _ => (.internalError, store2, sent))
          | none => (.waiting sessionKey messages stillWaitingNote, store1, sent)

/-! ## Helper lemmas -/

/-- find? over a map whose function preserves the predicate. -/
theorem find?_map_pred {α : Type} (p : α → Bool) (f : α → α) (l : List α)
    (hf : ∀ x, p (f x) = p x) :
    (l.map f).find? p = (l.find? p).map f := by
  induction l with
  | nil => rfl
  | cons x xs ih =>
    simp only [List.map_cons, List.find?_cons]
    rw [hf x]
    cases hp : p x
    · exact ih
    · rfl

/-! ## Claim theorems -/

/-- Claim C6: extractJSON applies its three strategies in order (whole
trimmed text, fenced code block interior, first-brace-to-last-brace slice),
returning the first success; a parse failure at any stage falls through, a
total failure returns none; and on the three concrete inputs of the claim it
returns the embedded object, the fenced object, and none respectively. -/
theorem extractJSON_three_strategies :
    (∀ t, extractJSON t =
      firstSome (strategyDirect t) (strategyCodeBlock t) (strategyBraces t)) ∧
    (∀ t, strategyDirect t = none → strategyCodeBlock t = none →
      strategyBraces t = none → extractJSON t = none) ∧
    extractJSON (chars "some prose \x7b\"question\":\"Q?\",\"options\":[]\x7d trailing") =
      some (.obj [("question", .str "Q?"), ("options", .arr [])]) ∧
    extractJSON (chars "```json\n\x7b\"a\":1\x7d\n```") =
      some (.obj [("a", .num 1 0)]) ∧
    extractJSON (chars "not json at all") = none := by
  refine ⟨?_, ?_, rfl, rfl, rfl⟩
  · intro t
    unfold extractJSON firstSome strategyDirect strategyCodeBlock strategyBraces
    cases h1 : jsonParse (jsTrim t)
    · cases h2 : codeBlockCapture t
      · simp [h2]
      · simp [h2]
    · simp
  · intro t h1 h2 h3
    unfold extractJSON
    unfold strategyDirect at h1
    unfold strategyCodeBlock at h2
    unfold strategyBraces at h3
    rw [h1]
    cases hc : codeBlockCapture t
    · exact h3
    · rw [hc] at h2
      simp only [] at h2
      simp [h2, h3]

/-- Witness for claim C6 at a concrete input on which all three strategies
fail. -/
theorem extractJSON_three_strategies_witness :
    extractJSON (chars "hello world") = none :=
  extractJSON_three_strategies.2.1 (chars "hello world") rfl rfl rfl

/-- Claim C2: with a non-empty webhook secret configured, a completion
request whose signature header is absent or not equal to the configured
HMAC-SHA-256 hex digest of the exact raw body is rejected as unauthorized
(401) with the store untouched — for every raw body, parseable or not, since
rejection precedes parsing; with no secret configured, verification is
skipped entirely: the outcome does not depend on the signature header. -/
theorem webhook_signature_enforcement :
    (∀ (hmacHex : String → String → String) (secret : String)
        (sig : Option String) (rawBody : String) (store : Store) (now : Nat)
        (ids : WebhookIds),
      secret ≠ "" →
      (∀ s, sig = some s → s ≠ hmacHex secret rawBody) →
      agentCompletionPOST hmacHex secret sig rawBody store now ids =
        (.unauthorized, store) ∧
      WebhookResult.statusCode .unauthorized = 401) ∧
    (∀ (hmacHex : String → String → String) (sig sig' : Option String)
        (rawBody : String) (store : Store) (now : Nat) (ids : WebhookIds),
      agentCompletionPOST hmacHex "" sig rawBody store now ids =
        agentCompletionPOST hmacHex "" sig' rawBody store now ids) := by
  constructor
  · intro hmacHex secret sig rawBody store now ids hsec hne
    refine ⟨?_, rfl⟩
    unfold agentCompletionPOST
    rw [if_pos hsec]
    cases sig with
    | none => rfl
    | some s =>
      have hcond : s = "" ∨ ¬ verifyWebhookSignature hmacHex secret s rawBody := by
        by_cases he : s = ""
        · exact Or.inl he
        · refine Or.inr ?_
          unfold verifyWebhookSignature
          rw [if_neg hsec, if_neg he]
          simpa using hne s rfl
      dsimp only
      rw [if_pos hcond]
  · intro hmacHex sig sig' rawBody store now ids
    unfold agentCompletionPOST
    simp

/-- Concrete store fixtures used by witnesses. -/
def emptyStore : Store :=
  { tasks := [], agents := [], sessions := [], events := [],
    activities := [], deliverables := [] }

def widsA : WebhookIds :=
  { deliverableId := fun _ => "d", activityId := "act1", eventId := "ev1" }

/-- Witness for claim C2: a concrete mismatched signature is rejected with
the store unchanged. -/
theorem webhook_signature_enforcement_witness :
    agentCompletionPOST (fun _ _ => "aaaa") "topsecret" (some "bbbb")
      "\x7b\"task_id\":\"t1\"\x7d" emptyStore 5 widsA = (.unauthorized, emptyStore) :=
  (webhook_signature_enforcement.1 (fun _ _ => "aaaa") "topsecret" (some "bbbb")
    "\x7b\"task_id\":\"t1\"\x7d" emptyStore 5 widsA (by decide)
    (by intro s hs; injection hs with h; subst h; decide)).1

/-- The direct path leaves exactly the forward-only task update in the
tasks table, in every deliverables branch. -/
theorem handleDirect_tasks (store : Store) (body : Json) (tidJson : Json)
    (now : Nat) (ids : WebhookIds) (task : Task)
    (h : taskLookup store.tasks tidJson = some task) :
    (handleDirect store body tidJson now ids).2.tasks =
      directTasks store body task now := by
  unfold handleDirect
  rw [h]
  dsimp only
  split
  · split
    · rfl
    · rfl
  · split
    · rfl
    · rfl
  · rfl

/-- A task-row update that only rewrites status and updated_at preserves
every id, so lookups commute with it. -/
theorem taskLookup_map_status (tasks : List Task) (s : String) (st : String) (now : Nat)
    (tid : String) :
    (tasks.map (fun u =>
      if u.id = tid then { u with status := st, updated_at := now } else u)).find?
        (fun t => t.id = s) =
      (tasks.find? (fun t => t.id = s)).map (fun u =>
        if u.id = tid then { u with status := st, updated_at := now } else u) := by
  apply find?_map_pred
  intro x
  by_cases hx : x.id = tid <;> simp [hx]

/-- Claim C3: in the direct completion path the target status is the
payload's status when it is one of testing/review/done and testing
otherwise, and the task's stored status becomes the target exactly when the
target is strictly later in the ordering; otherwise the tasks table is left
untouched. -/
theorem direct_completion_forward_only :
    ∀ (store : Store) (body : Json) (now : Nat) (ids : WebhookIds)
      (tidVal : Json) (task : Task),
      getField body "task_id" = some tidVal →
      truthy tidVal = true →
      taskLookup store.tasks tidVal = some task →
      (taskLookup (handleBody store body now ids).2.tasks tidVal).map
          (fun t => t.status) =
        some (if jsIndexOf statusOrder (targetStatusOf (getField body "status")) >
              jsIndexOf statusOrder task.status
          then targetStatusOf (getField body "status") else task.status) ∧
      (¬ (jsIndexOf statusOrder (targetStatusOf (getField body "status")) >
            jsIndexOf statusOrder task.status) →
        (handleBody store body now ids).2.tasks = store.tasks) := by
  intro store body now ids tidVal task h1 h2 h3
  have hbody : (handleBody store body now ids) =
      handleDirect store body tidVal now ids := by
    cases body with
    | obj fields =>
      unfold handleBody
      dsimp only
      rw [h1]
      simp [truthyOpt, h2]
    | null => simp [getField] at h1
    | bool b => simp [getField] at h1
    | num m e => simp [getField] at h1
    | str s => simp [getField] at h1
    | arr xs => simp [getField] at h1
  rw [hbody]
  cases tidVal with
  | null => simp [taskLookup] at h3
  | bool b => simp [taskLookup] at h3
  | num m e => simp [taskLookup] at h3
  | arr xs => simp [taskLookup] at h3
  | obj fields => simp [taskLookup] at h3
  | str s =>
    have h3' : List.find? (fun t => decide (t.id = s)) store.tasks = some task := h3
    have htid : task.id = s := by
      have hp := List.find?_some h3'
      simpa using hp
    have htasks := handleDirect_tasks store body (Json.str s) now ids task h3
    rw [htasks]
    unfold directTasks directNewStatus
    by_cases hgt : jsIndexOf statusOrder (targetStatusOf (getField body "status")) >
        jsIndexOf statusOrder task.status
    · have hne : targetStatusOf (getField body "status") ≠ task.status := by
        intro he
        rw [he] at hgt
        exact lt_irrefl _ hgt
      refine ⟨?_, fun hc => absurd hgt hc⟩
      rw [if_pos hgt, if_pos hne]
      simp only [taskLookup]
      rw [taskLookup_map_status, h3']
      simp
    · rw [if_neg hgt]
      rw [if_neg (show ¬ (task.status ≠ task.status) from fun h => h rfl)]
      refine ⟨?_, fun _ => rfl⟩
      simp only [taskLookup]
      rw [h3']
      rfl

def taskDone : Task :=
  { id := "t1", title := "T", description := none, status := "done",
    priority := "normal", assigned_agent_id := some "a1", due_date := none,
    workspace_id := "w1", planning_session_key := none, planning_messages := [],
    updated_at := 10 }

def agentA1 : Agent :=
  { id := "a1", name := "Alpha", role := "specialist", is_master := false,
    status := "standby", workspace_id := "w1", updated_at := 5 }

def storeDone : Store :=
  { tasks := [taskDone], agents := [agentA1], sessions := [], events := [],
    activities := [], deliverables := [] }

def bodyDone : Json := .obj [("task_id", .str "t1"), ("status", .str "done")]

def bodyReview : Json := .obj [("task_id", .str "t1"), ("status", .str "review")]

/-- Witness for claim C3: a done task stays done under a done payload, and
applying a review payload to the resulting store still leaves it done. -/
theorem direct_completion_forward_only_witness :
    (taskLookup (handleBody storeDone bodyDone 20 widsA).2.tasks (.str "t1")).map
        (fun t => t.status) = some "done" ∧
    (taskLookup (handleBody (handleBody storeDone bodyDone 20 widsA).2
        bodyReview 30 widsA).2.tasks (.str "t1")).map
        (fun t => t.status) = some "done" := by
  constructor
  · exact (direct_completion_forward_only storeDone bodyDone 20 widsA
      (.str "t1") taskDone rfl rfl rfl).1.trans (by decide)
  · exact (direct_completion_forward_only (handleBody storeDone bodyDone 20 widsA).2
      bodyReview 30 widsA (.str "t1") taskDone rfl rfl rfl).1.trans (by decide)

/-- Reduction of the webhook body dispatch to the direct path when a truthy
task_id field is present. -/
theorem handleBody_direct_eq (store : Store) (body : Json) (now : Nat)
    (ids : WebhookIds) (tidVal : Json)
    (h1 : getField body "task_id" = some tidVal) (h2 : truthy tidVal = true) :
    handleBody store body now ids = handleDirect store body tidVal now ids := by
  cases body with
  | obj fields =>
    unfold handleBody
    dsimp only
    rw [h1]
    simp [truthyOpt, h2]
  | null => simp [getField] at h1
  | bool b => simp [getField] at h1
  | num m e => simp [getField] at h1
  | str s => simp [getField] at h1
  | arr xs => simp [getField] at h1

/-- Behaviour of the deliverable insert loop when every entry is an object
carrying a title: all rows land, in payload order, each with the
`d.type || 'file'` deliverable_type. -/
theorem insertDeliverableRows_spec (tid : String) (now : Nat) (dids : Nat → String) :
    ∀ (ds : List Json) (i : Nat),
      (∀ d ∈ ds, d ≠ Json.null ∧ (getField d "title").isSome = true) →
      (insertDeliverableRows tid now dids i ds).2 = true ∧
      (insertDeliverableRows tid now dids i ds).1.length = ds.length ∧
      ∀ (j : Nat) (d : Json), ds[j]? = some d →
        ∃ row : DeliverableRow,
          (insertDeliverableRows tid now dids i ds).1[j]? = some row ∧
          row.task_id = tid ∧
          row.deliverable_type = jsOrDefault (getField d "type") (Json.str "file") := by
  intro ds
  induction ds with
  | nil =>
    intro i _
    refine ⟨rfl, rfl, ?_⟩
    intro j d hj
    rw [List.getElem?_nil] at hj
    cases hj
  | cons d ds ih =>
    intro i hall
    obtain ⟨hd, hds⟩ := List.forall_mem_cons.mp hall
    obtain ⟨title, ht⟩ := Option.isSome_iff_exists.mp hd.2
    have hrow : mkDeliverableRow tid now (dids i) d =
        some { id := dids i, task_id := tid,
               deliverable_type := jsOrDefault (getField d "type") (Json.str "file"),
               title := title,
               path := jsOrDefault (getField d "path") Json.null,
               description := jsOrDefault (getField d "description") Json.null,
               created_at := now } := by
      unfold mkDeliverableRow
      cases d with
      | null => exact absurd rfl hd.1
      | obj fields => rw [ht]
      | bool b => simp [getField] at ht
      | num m e => simp [getField] at ht
      | str s => simp [getField] at ht
      | arr xs => simp [getField] at ht
    obtain ⟨hok, hlen, hrows⟩ := ih (i + 1) hds
    unfold insertDeliverableRows
    rw [hrow]
    dsimp only
    refine ⟨by rw [hok], by simpa using hlen, ?_⟩
    intro j e hj
    cases j with
    | zero =>
      simp at hj
      subst hj
      exact ⟨_, List.getElem?_cons_zero, rfl, rfl⟩
    | succ j =>
      simp only [List.getElem?_cons_succ] at hj ⊢
      exact hrows j e hj

/-- Claim C9: each deliverable row registered by the direct webhook path
stores the payload entry's type verbatim when it is a non-empty string (with
no validation against any enum), and 'file' when the type field is absent or
empty. -/
theorem deliverable_type_stored_verbatim :
    ∀ (store : Store) (body : Json) (now : Nat) (ids : WebhookIds)
      (tidVal : Json) (task : Task) (ds : List Json),
      getField body "task_id" = some tidVal →
      truthy tidVal = true →
      taskLookup store.tasks tidVal = some task →
      getField body "deliverables" = some (.arr ds) →
      (∀ d ∈ ds, d ≠ Json.null ∧ (getField d "title").isSome = true) →
      ∃ rows : List DeliverableRow,
        (handleBody store body now ids).2.deliverables =
          store.deliverables ++ rows ∧
        rows.length = ds.length ∧
        ∀ (j : Nat) (d : Json), ds[j]? = some d →
          ∃ row : DeliverableRow, rows[j]? = some row ∧
            (∀ s : String, getField d "type" = some (.str s) →
              row.deliverable_type = Json.str (if s = "" then "file" else s)) ∧
            (getField d "type" = none →
              row.deliverable_type = Json.str "file") := by
  intro store body now ids tidVal task ds h1 h2 h3 h4 h5
  rw [handleBody_direct_eq store body now ids tidVal h1 h2]
  obtain ⟨hok, hlen, hrows⟩ :=
    insertDeliverableRows_spec task.id now ids.deliverableId ds 0 h5
  refine ⟨(insertDeliverableRows task.id now ids.deliverableId 0 ds).1, ?_, hlen, ?_⟩
  · unfold handleDirect
    rw [h3]
    dsimp only
    rw [h4]
    dsimp only
    rw [show insertDeliverableRows task.id now ids.deliverableId 0 ds =
        ((insertDeliverableRows task.id now ids.deliverableId 0 ds).1,
         (insertDeliverableRows task.id now ids.deliverableId 0 ds).2) from rfl]
    dsimp only
    rw [hok]
    simp
  · intro j d hj
    obtain ⟨row, hr, _, htype⟩ := hrows j d hj
    refine ⟨row, hr, ?_, ?_⟩
    · intro s hs
      rw [htype, hs]
      unfold jsOrDefault truthy
      by_cases he : s = ""
      · subst he
        simp
      · simp [he]
    · intro hnone
      rw [htype, hnone]
      rfl

def dBanana : Json := .obj [("type", .str "banana"), ("title", .str "x.txt")]

def bodyBanana : Json :=
  .obj [("task_id", .str "t1"), ("summary", .str "made banana"),
        ("deliverables", .arr [dBanana])]

/-- Witness for claim C9: a type of "banana" — not in the file/url/artifact
enum — is stored verbatim. -/
theorem deliverable_type_stored_verbatim_witness :
    ∃ rows : List DeliverableRow,
      (handleBody storeDone bodyBanana 40 widsA).2.deliverables =
        storeDone.deliverables ++ rows ∧
      rows.length = 1 ∧
      ∃ row : DeliverableRow,
        rows[0]? = some row ∧ row.deliverable_type = Json.str "banana" := by
  obtain ⟨rows, hd, hlen, hr⟩ :=
    deliverable_type_stored_verbatim storeDone bodyBanana 40 widsA
      (.str "t1") taskDone [dBanana] rfl rfl rfl rfl
      (by
        intro d hd
        simp only [List.mem_singleton] at hd
        subst hd
        exact ⟨by simp [dBanana], rfl⟩)
  obtain ⟨row, hrow, hstr, _⟩ := hr 0 dBanana rfl
  exact ⟨rows, hd, hlen, row, hrow,
    (hstr "banana" rfl).trans (by rw [if_neg (by decide)])⟩

/-- Claim C4: dispatching a task whose assigned agent is a master agent
while at least one other non-offline master agent exists in the same
workspace returns a 409 conflict result listing exactly the other
qualifying agents, sends no gateway message, and mutates no state. -/
theorem dispatch_master_conflict :
    ∀ (store : Store) (id : String) (connected connectOk sendOk : Bool)
      (cfg : DispatchConfig) (now nowMs : Nat) (ids : DispatchIds)
      (task : Task) (aid : String) (agent : Agent),
      store.tasks.find? (fun t => t.id = id) = some task →
      task.assigned_agent_id = some aid →
      aid ≠ "" →
      store.agents.find? (fun a => a.id = aid) = some agent →
      agent.is_master = true →
      store.agents.filter (fun a =>
        a.is_master ∧ a.id ≠ agent.id ∧
        a.workspace_id = task.workspace_id ∧ a.status ≠ "offline") ≠ [] →
      dispatchPOST store id connected connectOk sendOk cfg now nowMs ids =
        (.conflict ((store.agents.filter (fun a =>
            a.is_master ∧ a.id ≠ agent.id ∧
            a.workspace_id = task.workspace_id ∧ a.status ≠ "offline")).map
            (fun a => ⟨a.id, a.name, a.role⟩)),
         store, []) ∧
      DispatchResult.statusCode
        (.conflict ((store.agents.filter (fun a =>
            a.is_master ∧ a.id ≠ agent.id ∧
            a.workspace_id = task.workspace_id ∧ a.status ≠ "offline")).map
            (fun a => ⟨a.id, a.name, a.role⟩))) = 409 := by
  intro store id connected connectOk sendOk cfg now nowMs ids task aid agent
    h1 h2 haid h4 h5 h6
  refine ⟨?_, rfl⟩
  unfold dispatchPOST
  rw [h1]
  dsimp only
  rw [h2]
  dsimp only
  rw [if_neg haid, h4]
  dsimp only
  simp only [h5, if_pos rfl]
  rw [if_pos (by simpa using List.length_pos.mpr h6)]
  simp

def masterM1 : Agent :=
  { id := "m1", name := "Main", role := "orchestrator", is_master := true,
    status := "standby", workspace_id := "w1", updated_at := 1 }

def masterM2 : Agent :=
  { id := "m2", name := "Backup", role := "orchestrator", is_master := true,
    status := "standby", workspace_id := "w1", updated_at := 1 }

def taskM : Task :=
  { id := "t2", title := "M", description := none, status := "assigned",
    priority := "high", assigned_agent_id := some "m1", due_date := none,
    workspace_id := "w1", planning_session_key := none, planning_messages := [],
    updated_at := 7 }

def storeM : Store :=
  { tasks := [taskM], agents := [masterM1, masterM2], sessions := [],
    events := [], activities := [], deliverables := [] }

def cfgA : DispatchConfig :=
  { projectsPath := "/projects", missionControlUrl := "http://mc", apiToken := "" }

def didsA : DispatchIds :=
  { sessionId := "s-new", sessionEventId := "ev-s", eventId := "ev-d",
    activityId := "ac-d" }

/-- Witness for claim C4 at a concrete two-master store: the 409 result
lists exactly the other master, the store is untouched, nothing is sent. -/
theorem dispatch_master_conflict_witness :
    dispatchPOST storeM "t2" true true true cfgA 50 60 didsA =
      (.conflict [⟨"m2", "Backup", "orchestrator"⟩], storeM, []) :=
  (dispatch_master_conflict storeM "t2" true true true cfgA 50 60 didsA
    taskM "m1" masterM1 rfl rfl (by decide) rfl rfl (by decide)).1.trans (by rfl)

def sessA1 : SessionRow :=
  { id := "s1", agent_id := "a1", openclaw_session_id := "mission-control-alpha",
    channel := "mission-control", status := "active", created_at := 2,
    updated_at := 2 }

def storeC1 : Store :=
  { tasks := [taskDone], agents := [agentA1], sessions := [sessA1],
    events := [], activities := [], deliverables := [] }

/-- Counterexample to claim C1: dispatching a task whose status is done — a
status strictly later than in_progress — succeeds and changes the stored
status to in_progress: the dispatch write path performs an unconditional
status UPDATE, not a forward-only transition. -/
theorem dispatch_regresses_done_task :
    (dispatchPOST storeC1 "t1" true true true cfgA 70 80 didsA).1 =
      .ok "t1" "a1" "mission-control-alpha" ∧
    (storeC1.tasks.find? (fun t => t.id = "t1")).map (fun t => t.status) =
      some "done" ∧
    ((dispatchPOST storeC1 "t1" true true true cfgA 70 80 didsA).2.1.tasks.find?
        (fun t => t.id = "t1")).map (fun t => t.status) = some "in_progress" ∧
    ("in_progress" : String) ≠ "done" :=
  ⟨rfl, rfl, rfl, by decide⟩

/-- Claim C1 amended: a successful dispatch stores in_progress as the
dispatched task's status unconditionally — including tasks whose status is
already strictly past in_progress, which are regressed rather than left
unchanged. -/
theorem dispatch_sets_in_progress_unconditionally :
    ∀ (store : Store) (id : String) (connected connectOk sendOk : Bool)
      (cfg : DispatchConfig) (now nowMs : Nat) (ids : DispatchIds)
      (r : DispatchResult) (s : Store) (msgs : List SentMessage)
      (tid aid sid : String),
      dispatchPOST store id connected connectOk sendOk cfg now nowMs ids =
        (r, s, msgs) →
      r = .ok tid aid sid →
      ∀ t ∈ s.tasks, t.id = id → t.status = "in_progress" := by
  intro store id connected connectOk sendOk cfg now nowMs ids r s msgs tid aid sid
    heq hok t ht hid
  unfold dispatchPOST at heq
  repeat' split at heq
  all_goals try (dsimp only at heq; repeat' split at heq)
  all_goals
    injection heq with hr h23
  all_goals
    injection h23 with hs hm
  all_goals subst hr
  all_goals
    first
    | exact DispatchResult.noConfusion hok
    | (subst hs
       obtain ⟨u, hu, huf⟩ := List.mem_map.mp ht
       by_cases hcu : u.id = id
       · rw [← huf]
         simp [hcu]
       · rw [← huf] at hid
         simp [hcu] at hid)

/-- Witness for the amended claim C1: the concrete regressed task row (done
before dispatch) is present with status in_progress after a successful
dispatch. -/
theorem dispatch_sets_in_progress_unconditionally_witness :
    ({ taskDone with status := "in_progress", updated_at := 70 } : Task) ∈
      (dispatchPOST storeC1 "t1" true true true cfgA 70 80 didsA).2.1.tasks ∧
    ({ taskDone with status := "in_progress", updated_at := 70 } : Task).status =
      "in_progress" :=
  ⟨by decide,
   dispatch_sets_in_progress_unconditionally storeC1 "t1" true true true cfgA
     70 80 didsA _ _ _ "t1" "a1" "mission-control-alpha" rfl rfl
     { taskDone with status := "in_progress", updated_at := 70 }
     (by decide) rfl⟩

/-- Claim C7: linking an agent that already has an active session returns a
409 conflict carrying that session and creates no session; unlinking an
agent with no active session returns 404 with the store unchanged; a
successful unlink marks the active session inactive with a fresh timestamp
and deletes no session row. -/
theorem openclaw_link_unlink_lifecycle :
    (∀ (store : Store) (id : String) (connected connectOk listOk : Bool)
        (bodySessionId : Option String) (ids : LinkIds) (now : Nat)
        (agent : Agent) (sess : SessionRow),
      store.agents.find? (fun a => a.id = id) = some agent →
      store.sessions.find? (fun x => x.agent_id = id ∧ x.status = "active") =
        some sess →
      openclawPOST store id connected connectOk listOk bodySessionId ids now =
        (.alreadyLinked sess, store) ∧
      LinkResult.statusCode (.alreadyLinked sess) = 409) ∧
    (∀ (store : Store) (id eventId : String) (now : Nat) (agent : Agent),
      store.agents.find? (fun a => a.id = id) = some agent →
      store.sessions.find? (fun x => x.agent_id = id ∧ x.status = "active") =
        none →
      openclawDELETE store id eventId now = (.notLinked, store) ∧
      UnlinkResult.statusCode .notLinked = 404) ∧
    (∀ (store : Store) (id eventId : String) (now : Nat)
        (agent : Agent) (sess : SessionRow),
      store.agents.find? (fun a => a.id = id) = some agent →
      store.sessions.find? (fun x => x.agent_id = id ∧ x.status = "active") =
        some sess →
      (openclawDELETE store id eventId now).1 = .unlinked ∧
      (openclawDELETE store id eventId now).2.sessions.length =
        store.sessions.length ∧
      ∀ x ∈ store.sessions,
        (if x.id = sess.id then { x with status := "inactive", updated_at := now }
         else x) ∈ (openclawDELETE store id eventId now).2.sessions) := by
  refine ⟨?_, ?_, ?_⟩
  · intro store id c cOk lOk b ids now agent sess h1 h2
    refine ⟨?_, rfl⟩
    unfold openclawPOST
    rw [h1]
    dsimp only
    rw [h2]
  · intro store id ev now agent h1 h2
    refine ⟨?_, rfl⟩
    unfold openclawDELETE
    rw [h1]
    dsimp only
    rw [h2]
  · intro store id ev now agent sess h1 h2
    unfold openclawDELETE
    rw [h1]
    dsimp only
    rw [h2]
    dsimp only
    refine ⟨rfl, by simp, ?_⟩
    intro x hx
    exact List.mem_map_of_mem _ hx

def lidsA : LinkIds := { sessionId := "s9", eventId := "ev9" }

/-- Witness for claim C7 at concrete stores: a linked agent is refused a
second link with the existing session, unlink without a session 404s with
the store unchanged, and a successful unlink keeps the row inactive. -/
theorem openclaw_link_unlink_lifecycle_witness :
    openclawPOST storeC1 "a1" true true true none lidsA 90 =
      (.alreadyLinked sessA1, storeC1) ∧
    openclawDELETE storeDone "a1" "ev9" 91 = (.notLinked, storeDone) ∧
    (openclawDELETE storeC1 "a1" "ev9" 92).1 = .unlinked ∧
    ({ sessA1 with status := "inactive", updated_at := 92 } : SessionRow) ∈
      (openclawDELETE storeC1 "a1" "ev9" 92).2.sessions := by
  refine ⟨(openclaw_link_unlink_lifecycle.1 storeC1 "a1" true true true none
      lidsA 90 agentA1 sessA1 rfl rfl).1,
    (openclaw_link_unlink_lifecycle.2.1 storeDone "a1" "ev9" 91 agentA1
      rfl rfl).1,
    (openclaw_link_unlink_lifecycle.2.2 storeC1 "a1" "ev9" 92 agentA1 sessA1
      rfl rfl).1, ?_⟩
  have hm := (openclaw_link_unlink_lifecycle.2.2 storeC1 "a1" "ev9" 92 agentA1
    sessA1 rfl rfl).2.2 sessA1 (by decide)
  simpa using hm

/-- Reduction of the webhook body dispatch to the legacy path when task_id
is falsy and truthy session_id and message fields are present. -/
theorem handleBody_legacy_eq (store : Store) (body : Json) (now : Nat)
    (ids : WebhookIds) (sidVal msgVal : Json)
    (h1 : truthyOpt (getField body "task_id") = false)
    (h2 : getField body "session_id" = some sidVal)
    (h3 : truthy sidVal = true)
    (h4 : getField body "message" = some msgVal)
    (h5 : truthy msgVal = true) :
    handleBody store body now ids = handleLegacy store sidVal msgVal now ids := by
  cases body with
  | obj fields =>
    unfold handleBody
    dsimp only
    rw [h1, h2, h4]
    simp [truthyOpt, h3, h5]
  | null => simp [getField] at h2
  | bool b => simp [getField] at h2
  | num m e => simp [getField] at h2
  | str s => simp [getField] at h2
  | arr xs => simp [getField] at h2

/-- Claim C5: in the legacy session-based completion path a message without
the TASK_COMPLETE marker fails with 400 and mutates nothing; with a marker
match, the active session is resolved to its agent and the agent's most
recently updated task in assigned/in_progress is selected (404 when none
exists, mutating nothing); on success the task is set to testing only when
not already testing/review/done, one completion event is appended, and the
agent is reset to standby. -/
theorem legacy_completion_flow :
    (∀ (store : Store) (body : Json) (now : Nat) (ids : WebhookIds)
        (sid m : String),
      truthyOpt (getField body "task_id") = false →
      getField body "session_id" = some (.str sid) → sid ≠ "" →
      getField body "message" = some (.str m) → m ≠ "" →
      taskCompleteMatch m.data = none →
      handleBody store body now ids = (.invalidFormat, store) ∧
      WebhookResult.statusCode .invalidFormat = 400) ∧
    (∀ (store : Store) (body : Json) (now : Nat) (ids : WebhookIds)
        (sid m : String) (cap : List Char) (sess : SessionRow),
      truthyOpt (getField body "task_id") = false →
      getField body "session_id" = some (.str sid) → sid ≠ "" →
      getField body "message" = some (.str m) → m ≠ "" →
      taskCompleteMatch m.data = some cap →
      sessionLookup store.sessions (.str sid) = some sess →
      pickActiveTask store.tasks sess.agent_id = none →
      handleBody store body now ids = (.noActiveTask, store) ∧
      WebhookResult.statusCode .noActiveTask = 404) ∧
    (∀ (store : Store) (body : Json) (now : Nat) (ids : WebhookIds)
        (sid m : String) (cap : List Char) (sess : SessionRow) (task : Task),
      truthyOpt (getField body "task_id") = false →
      getField body "session_id" = some (.str sid) → sid ≠ "" →
      getField body "message" = some (.str m) → m ≠ "" →
      taskCompleteMatch m.data = some cap →
      sessionLookup store.sessions (.str sid) = some sess →
      pickActiveTask store.tasks sess.agent_id = some task →
      (handleBody store body now ids).1 =
        .okLegacy task.id sess.agent_id (String.mk (jsTrim cap)) ∧
      (handleBody store body now ids).2.tasks =
        (if task.status ≠ "testing" ∧ task.status ≠ "review" ∧
            task.status ≠ "done" then
          store.tasks.map (fun u =>
            if u.id = task.id then
              { u with status := "testing", updated_at := now }
            else u)
        else store.tasks) ∧
      (handleBody store body now ids).2.events = store.events ++
        [{ id := ids.eventId, type := "task_completed",
           agent_id := some sess.agent_id, task_id := some task.id,
           message := jsDisplayOptStr (assignedAgentName store.agents task) ++
             " completed: " ++ String.mk (jsTrim cap),
           created_at := now }] ∧
      (handleBody store body now ids).2.agents = store.agents.map (fun a =>
        if a.id = sess.agent_id then
          { a with status := "standby", updated_at := now }
        else a)) := by
  refine ⟨?_, ?_, ?_⟩
  · intro store body now ids sid m h1 h2 h3 h4 h5 hm
    refine ⟨?_, rfl⟩
    rw [handleBody_legacy_eq store body now ids (.str sid) (.str m) h1 h2
      (by simpa [truthy] using h3) h4 (by simpa [truthy] using h5)]
    unfold handleLegacy
    dsimp only
    rw [hm]
  · intro store body now ids sid m cap sess h1 h2 h3 h4 h5 hm hsess hnone
    refine ⟨?_, rfl⟩
    rw [handleBody_legacy_eq store body now ids (.str sid) (.str m) h1 h2
      (by simpa [truthy] using h3) h4 (by simpa [truthy] using h5)]
    unfold handleLegacy
    dsimp only
    rw [hm]
    dsimp only
    rw [hsess]
    dsimp only
    rw [hnone]
  · intro store body now ids sid m cap sess task h1 h2 h3 h4 h5 hm hsess htask
    rw [handleBody_legacy_eq store body now ids (.str sid) (.str m) h1 h2
      (by simpa [truthy] using h3) h4 (by simpa [truthy] using h5)]
    unfold handleLegacy
    dsimp only
    rw [hm]
    dsimp only
    rw [hsess]
    dsimp only
    rw [htask]
    exact ⟨rfl, rfl, rfl, rfl⟩

def taskInProg : Task :=
  { id := "t3", title := "W", description := none, status := "in_progress",
    priority := "normal", assigned_agent_id := some "a1", due_date := none,
    workspace_id := "w1", planning_session_key := none, planning_messages := [],
    updated_at := 11 }

def storeLeg : Store :=
  { tasks := [taskInProg], agents := [agentA1], sessions := [sessA1],
    events := [], activities := [], deliverables := [] }

def bodyLeg : Json :=
  .obj [("session_id", .str "mission-control-alpha"),
        ("message", .str "TASK_COMPLETE: Built it")]

/-- Witness for claim C5: a concrete legacy completion lands the agent's
active in_progress task on testing, reports the trimmed summary, and resets
the agent to standby. -/
theorem legacy_completion_flow_witness :
    (handleBody storeLeg bodyLeg 99 widsA).1 = .okLegacy "t3" "a1" "Built it" ∧
    ((handleBody storeLeg bodyLeg 99 widsA).2.tasks.find?
        (fun t => t.id = "t3")).map (fun t => t.status) = some "testing" ∧
    ((handleBody storeLeg bodyLeg 99 widsA).2.agents.find?
        (fun a => a.id = "a1")).map (fun a => a.status) = some "standby" := by
  have h := legacy_completion_flow.2.2 storeLeg bodyLeg 99 widsA
    "mission-control-alpha" "TASK_COMPLETE: Built it" (chars "Built it")
    sessA1 taskInProg rfl rfl (by decide) rfl (by decide) rfl rfl rfl
  refine ⟨h.1.trans (by decide), ?_, ?_⟩
  · rw [h.2.1]
    decide
  · rw [h.2.2.2]
    decide

/-- The polling loop inspects only the polls inside its window. -/
theorem pollForResponse_congr (h h' : Nat → List OCMessage) :
    ∀ (fuel i : Nat), (∀ j, i ≤ j → j < i + fuel → h j = h' j) →
      pollForResponse h i fuel = pollForResponse h' i fuel := by
  intro fuel
  induction fuel with
  | zero => intro i _; rfl
  | succ fuel ih =>
    intro i hag
    unfold pollForResponse
    rw [hag i (le_refl i) (by omega)]
    dsimp only
    split
    · split
      · rfl
      · exact ih (i + 1) (fun j hj1 hj2 => hag j (by omega) (by omega))
    · exact ih (i + 1) (fun j hj1 hj2 => hag j (by omega) (by omega))

/-- With no assistant message visible at any inspected poll the loop
exhausts its attempts and yields none. -/
theorem pollForResponse_none (h : Nat → List OCMessage) :
    ∀ (fuel i : Nat), (∀ j, i ≤ j → j < i + fuel → assistantTexts (h j) = []) →
      pollForResponse h i fuel = none := by
  intro fuel
  induction fuel with
  | zero => intro i _; rfl
  | succ fuel ih =>
    intro i hag
    unfold pollForResponse
    rw [hag i (le_refl i) (by omega)]
    rw [if_neg (by simp)]
    exact ih (i + 1) (fun j hj1 hj2 => hag j (by omega) (by omega))

/-- Claim C8: the planning POST's wait is a bounded loop of exactly 30 poll
attempts — the outcome depends only on the first 30 transcript snapshots,
and the model is a total function, so the operation terminates — and a run
in which no poll shows an assistant message returns a success (200) response
carrying the explicit still-waiting note rather than an error. -/
theorem planning_poll_bounded_still_waiting :
    (∀ (store : Store) (taskId : String) (h h' : Nat → List OCMessage)
        (connected connectOk sendOk : Bool) (n1 n2 : Nat),
      (∀ i, i < 30 → h i = h' i) →
      planningPOST store taskId h connected connectOk sendOk n1 n2 =
        planningPOST store taskId h' connected connectOk sendOk n1 n2) ∧
    (∀ (store : Store) (taskId : String) (h : Nat → List OCMessage)
        (connectOk : Bool) (n1 n2 : Nat) (task : Task),
      store.tasks.find? (fun t => t.id = taskId) = some task →
      task.planning_session_key = none →
      (∀ i, i < 30 → assistantTexts (h i) = []) →
      (planningPOST store taskId h true connectOk true n1 n2).1 =
        .waiting ("agent:main:planning:" ++ taskId)
          [{ role := "user", content := planningPrompt task, timestamp := n1 }]
          stillWaitingNote ∧
      PlanningResult.statusCode
        (.waiting ("agent:main:planning:" ++ taskId)
          [{ role := "user", content := planningPrompt task, timestamp := n1 }]
          stillWaitingNote) = 200 ∧
      PlanningResult.isSuccess
        (.waiting ("agent:main:planning:" ++ taskId)
          [{ role := "user", content := planningPrompt task, timestamp := n1 }]
          stillWaitingNote) = true) := by
  constructor
  · intro store taskId h h' c cOk sOk n1 n2 hag
    have hp : pollForResponse h 0 30 = pollForResponse h' 0 30 :=
      pollForResponse_congr h h' 30 0 (fun j _ hj2 => hag j (by omega))
    unfold planningPOST
    simp only [hp]
  · intro store taskId h cOk n1 n2 task hfind hkey hempty
    have hp : pollForResponse h 0 30 = none :=
      pollForResponse_none h 30 0 (fun j _ hj2 => hempty j (by omega))
    refine ⟨?_, rfl, rfl⟩
    unfold planningPOST
    rw [hfind]
    dsimp only
    rw [hkey]
    dsimp only
    rw [if_neg (by simp)]
    rw [if_neg (by simp)]
    rw [hp]

/-- Witness for claim C8: with an always-empty transcript the planning POST
on a fresh task returns the still-waiting success response. -/
theorem planning_poll_bounded_still_waiting_witness :
    (planningPOST storeLeg "t3" (fun _ => []) true true true 100 101).1 =
      .waiting ("agent:main:planning:" ++ "t3")
        [{ role := "user", content := planningPrompt taskInProg, timestamp := 100 }]
        stillWaitingNote :=
  (planning_poll_bounded_still_waiting.2 storeLeg "t3" (fun _ => []) true 100 101
    taskInProg rfl rfl (fun _ _ => rfl)).1

/-- Claim C10: a whole trimmed input that parses as a bare JSON scalar (the
text "42" or "true") is returned by extractJSON's first strategy even though
the result is not a JSON object. -/
theorem extractJSON_bare_scalar :
    extractJSON (chars "42") = some (.num 42 0) ∧
    extractJSON (chars "true") = some (.bool true) ∧
    Json.isObj (.num 42 0) = false ∧
    Json.isObj (.bool true) = false :=
  ⟨rfl, rfl, rfl, rfl⟩

end MissionControl
